import Mathlib

/-!
# Verification of the deal-logging bot core

A shallow embedding, in Lean 4, of the core logic of the deal-logging bot:

* the link classifier (`deal_extractor/links/detector.py`),
* the extraction orchestrator's aggregation logic (`deal_extractor/__init__.py`),
* the DocSend fetcher's fallback logic (`deal_extractor/extractors/docsend.py`),
* the message grouping engine (`bot/utils/grouping.py`).

Python strings are modelled as `List Char` (with `String` at the API
boundary), Python exceptions as explicit `Option` results, timestamps as
integer seconds, and network / LLM calls as oracle parameters supplied to the
orchestration functions.  Every definition is written to follow the Python
source line by line; the theorems at the end of the file settle the
specification claims against these definitions.
-/

/-! ## Character and string primitives

These model the handful of Python `str` primitives the detector relies on:
`str.lower`, substring search (`in` / `re.search` with a literal pattern),
`str.startswith` / `str.endswith`, `str.rstrip`, splitting, and `%`-decoding
(`urllib.parse.unquote`).  Everything operates on `List Char`.
-/

/-- Python whitespace class `\s` restricted to ASCII (all inputs in this
development are ASCII): space, tab, newline, carriage return, vertical tab,
form feed. -/
def isPySpace (c : Char) : Bool :=
  c = ' ' || c = '\t' || c = '\n' || c = '\r' || c = '\x0b' || c = '\x0c'

/-- `str.lower` on a list of characters (ASCII case mapping, which agrees
with Python on every character appearing in this development). -/
def lowerChars (s : List Char) : List Char :=
  s.map Char.toLower

/-- `a.startswith(b)`: `pat` is a prefix of `s`. -/
def strStartsWith : (pat s : List Char) → Bool
  | [], _ => true
  | _ :: _, [] => false
  | p :: ps, c :: cs => p = c && strStartsWith ps cs

/-- `a.endswith(b)`: `pat` is a suffix of `s`. -/
def strEndsWith (pat s : List Char) : Bool :=
  strStartsWith pat.reverse s.reverse

/-- `pat in s` (also `re.search` with a fully escaped literal pattern):
`pat` occurs contiguously somewhere in `s`. -/
def strContains (pat : List Char) : (s : List Char) → Bool
  | [] => strStartsWith pat []
  | c :: cs => strStartsWith pat (c :: cs) || strContains pat cs

/-- `s.rstrip(chars)`: drop trailing characters belonging to `chars`. -/
def rstripChars (chars : List Char) (s : List Char) : List Char :=
  ((s.reverse.dropWhile fun c => chars.contains c)).reverse

/-- Split `s` at every occurrence of the separator `sep`
(Python `s.split(sep)` for a one-character separator). -/
def splitOnChar (sep : Char) : (s : List Char) → List (List Char)
  | [] => [[]]
  | c :: cs =>
    let rest := splitOnChar sep cs
    if c = sep then [] :: rest
    else
      match rest with
      | [] => [[c]]
      | r :: rs => (c :: r) :: rs

/-- Split `s` at the first occurrence of `sep`, if any
(Python `s.split(sep, 1)` when the separator occurs). -/
def splitOnFirst (sep : Char) : (s : List Char) → Option (List Char × List Char)
  | [] => none
  | c :: cs =>
    if c = sep then some ([], cs)
    else
      match splitOnFirst sep cs with
      | some (a, b) => some (c :: a, b)
      | none => none

/-- Value of a hexadecimal digit, if the character is one. -/
def hexDigitVal (c : Char) : Option Nat :=
  if '0' ≤ c ∧ c ≤ '9' then some (c.toNat - '0'.toNat)
  else if 'a' ≤ c ∧ c ≤ 'f' then some (c.toNat - 'a'.toNat + 10)
  else if 'A' ≤ c ∧ c ≤ 'F' then some (c.toNat - 'A'.toNat + 10)
  else none

/-- One lexical unit of a percent-encoded string: either a literal
character or the byte value of a valid `%XX` escape. -/
inductive UrlToken where
  | lit (c : Char)
  | byte (b : Nat)
deriving Repr, DecidableEq

/-- Tokenize a percent-encoded string: each valid `%XX` escape becomes a
byte token, everything else stays a literal character (a `%` not followed
by two hex digits is kept literally, as Python's `unquote` does). -/
def urlTokenize : (s : List Char) → List UrlToken
  | [] => []
  | '%' :: a :: b :: rest =>
    match hexDigitVal a, hexDigitVal b with
    | some ha, some hb => UrlToken.byte (16 * ha + hb) :: urlTokenize rest
    | _, _ => UrlToken.lit '%' :: urlTokenize (a :: b :: rest)
  | c :: cs => UrlToken.lit c :: urlTokenize cs

/-- The Unicode replacement character `U+FFFD` used by Python's `replace`
error handler. -/
def uRepl : Char := Char.ofNat 0xFFFD

/-- Is `b` a UTF-8 continuation byte (`0x80`–`0xBF`)? -/
def utf8Cont (b : Nat) : Bool := 128 ≤ b && b < 192

/-- UTF-8 decoding with Python's `replace` error handler: every maximal
subpart of an ill-formed subsequence becomes one `U+FFFD`. -/
def utf8Decode : (bytes : List Nat) → List Char
  | [] => []
  | b :: rest =>
    if b < 128 then Char.ofNat b :: utf8Decode rest
    else if 194 ≤ b && b ≤ 223 then
      match rest with
      | b2 :: rest2 =>
        if utf8Cont b2 then
          Char.ofNat ((b - 192) * 64 + (b2 - 128)) :: utf8Decode rest2
        else uRepl :: utf8Decode (b2 :: rest2)
      | [] => [uRepl]
    else if 224 ≤ b && b ≤ 239 then
      match rest with
      | b2 :: rest2 =>
        let lo2 : Nat := if b = 224 then 160 else 128
        let hi2 : Nat := if b = 237 then 159 else 191
        if lo2 ≤ b2 && b2 ≤ hi2 then
          match rest2 with
          | b3 :: rest3 =>
            if utf8Cont b3 then
              Char.ofNat ((b - 224) * 4096 + (b2 - 128) * 64 + (b3 - 128)) ::
                utf8Decode rest3
            else uRepl :: utf8Decode (b3 :: rest3)
          | [] => [uRepl]
        else uRepl :: utf8Decode (b2 :: rest2)
      | [] => [uRepl]
    else if 240 ≤ b && b ≤ 244 then
      match rest with
      | b2 :: rest2 =>
        let lo2 : Nat := if b = 240 then 144 else 128
        let hi2 : Nat := if b = 244 then 143 else 191
        if lo2 ≤ b2 && b2 ≤ hi2 then
          match rest2 with
          | b3 :: rest3 =>
            if utf8Cont b3 then
              match rest3 with
              | b4 :: rest4 =>
                if utf8Cont b4 then
                  Char.ofNat ((b - 240) * 262144 + (b2 - 128) * 4096 +
                      (b3 - 128) * 64 + (b4 - 128)) :: utf8Decode rest4
                else uRepl :: utf8Decode (b4 :: rest4)
              | [] => [uRepl]
            else uRepl :: utf8Decode (b3 :: rest3)
          | [] => [uRepl]
        else uRepl :: utf8Decode (b2 :: rest2)
      | [] => [uRepl]
    else uRepl :: utf8Decode rest

/-- Decode a token stream: maximal runs of byte tokens are UTF-8 decoded
together (the accumulator holds the current run, in reverse), literal
characters pass through. -/
def decodeUrlTokens (acc : List Nat) : List UrlToken → List Char
  | [] => utf8Decode acc.reverse
  | UrlToken.byte b :: rest => decodeUrlTokens (b :: acc) rest
  | UrlToken.lit c :: rest => utf8Decode acc.reverse ++ c :: decodeUrlTokens [] rest

/-- `urllib.parse.unquote`: decode maximal `%XX` escape runs as UTF-8 with
the `replace` error handler; malformed escapes are left literal. -/
def unquoteChars (s : List Char) : List Char :=
  decodeUrlTokens [] (urlTokenize s)

/-- `urllib.parse.unquote` after Python's `'+' → ' '` replacement, as done
by `parse_qsl` on names and values. -/
def unquotePlus (s : List Char) : List Char :=
  unquoteChars (s.map fun c => if c = '+' then ' ' else c)

/-! ## `urllib.parse` model

`urlsplit` / `urlparse` as implemented by CPython, restricted to the
behaviour reachable from the detector: scheme recognition, netloc splitting,
the IPv6-bracket validity check (the only place `urlparse` can raise, modelled
as `none`), fragment/query splitting, parameter stripping, and `parse_qs`. -/

/-- The result of `urllib.parse.urlparse` (the fields the detector reads). -/
structure UrlParts where
  scheme : List Char
  netloc : List Char
  path : List Char
  query : List Char
  fragment : List Char
deriving Repr, DecidableEq

/-- Characters allowed in a URL scheme (`scheme_chars` in CPython). -/
def schemeChar (c : Char) : Bool :=
  c.isAlpha || c.isDigit || c = '+' || c = '-' || c = '.'

/-- Is this character one of the netloc delimiters `/?#`? -/
def netlocDelim (c : Char) : Bool := c = '/' || c = '?' || c = '#'

/-- `urllib.parse.urlsplit`.  Returns `none` exactly where CPython raises
`ValueError` (an unbalanced square bracket in the netloc). -/
def urlsplitModel (input : List Char) : Option UrlParts :=
  let url0 := input.filter fun c => ¬ (c = '\t' ∨ c = '\r' ∨ c = '\n')
  let sp :=
    match splitOnFirst ':' url0 with
    | some (pre, post) =>
      if !pre.isEmpty && (match pre with | c :: _ => c.isAlpha | [] => false)
          && pre.all schemeChar then
        (lowerChars pre, post)
      else ([], url0)
    | none => ([], url0)
  let scheme := sp.1
  let url1 := sp.2
  let np :=
    if strStartsWith ("//".data) url1 then
      let rest := url1.drop 2
      (rest.takeWhile fun c => ¬ netlocDelim c, rest.dropWhile fun c => ¬ netlocDelim c)
    else ([], url1)
  let netloc := np.1
  let url2 := np.2
  if (netloc.contains '[' ∧ ¬ netloc.contains ']')
      ∨ (netloc.contains ']' ∧ ¬ netloc.contains '[') then
    none
  else
    let fp :=
      match splitOnFirst '#' url2 with
      | some (u, frag) => (u, frag)
      | none => (url2, [])
    let qp :=
      match splitOnFirst '?' fp.1 with
      | some (u, q) => (u, q)
      | none => (fp.1, [])
    some { scheme := scheme, netloc := netloc, path := qp.1,
           query := qp.2, fragment := fp.2 }

/-- The parameter-stripping step that distinguishes `urlparse` from
`urlsplit` (`_splitparams`): drop a `;params` suffix from the last path
segment. -/
def splitParamsPath (path : List Char) : List Char :=
  if path.contains ';' then
    if path.contains '/' then
      let tail := (path.reverse.takeWhile fun c => c ≠ '/').reverse
      let pre := path.take (path.length - tail.length)
      if tail.contains ';' then pre ++ tail.takeWhile (fun c => c ≠ ';') else path
    else path.takeWhile fun c => c ≠ ';'
  else path

/-- `urllib.parse.urlparse`: `urlsplit` plus parameter stripping.  `none`
models the `ValueError` raise. -/
def urlparseModel (s : List Char) : Option UrlParts :=
  (urlsplitModel s).map fun p => { p with path := splitParamsPath p.path }

/-- `urllib.parse.parse_qsl` with default arguments: split the query on
`&`, skip empty fields, fields without `=` and fields with an empty raw
value, and `+`/percent-decode names and values. -/
def parseQsl (q : List Char) : List (List Char × List Char) :=
  (splitOnChar '&' q).filterMap fun field =>
    if field.isEmpty then none
    else
      match splitOnFirst '=' field with
      | none => none
      | some (n, v) =>
        if v.isEmpty then none else some (unquotePlus n, unquotePlus v)

/-- `parse_qs(query)[name][0]`: the first value bound to `name`, if any
(`parse_qs` groups `parse_qsl` pairs by name, preserving order). -/
def qsFirst (q : List Char) (name : List Char) : Option (List Char) :=
  ((parseQsl q).find? fun p => p.1 == name).map fun p => p.2

/-! ## Link detector (`deal_extractor/links/detector.py`)

A faithful model of `LinkType`, `DetectedLink` and `LinkDetector`.  All the
class attribute tables (`DOMAIN_PATTERNS`, `DECK_PATH_PATTERNS`,
`PRIORITY_MAP`, `REDIRECT_DOMAINS`) are kept in their Python iteration
order; every regex in those tables is a literal string, so `re.search`
over them is literal substring search (`strContains`). -/

/-- `LinkType`: types of links that can be detected in messages. -/
inductive LinkType where
  | DOCSEND
  | PAPERMARK
  | PITCH_COM
  | NOTION
  | GOOGLE_DRIVE
  | DROPBOX
  | PDF_DIRECT
  | LOOM
  | YOUTUBE
  | DUNE
  | CALENDAR
  | WEBSITE
  | LINKEDIN
  | TWITTER
  | UNKNOWN
deriving Repr, DecidableEq

/-- `DetectedLink`: a detected link with its classification. -/
structure DetectedLink where
  url : String
  link_type : LinkType
  is_deck : Bool
  priority : Nat
deriving Repr, DecidableEq

namespace LinkDetector

/-- `DOMAIN_PATTERNS`, in dict insertion order.  Each pattern is a literal
(the `\.` in the Python regexes escapes the dot). -/
def domainPatterns : List (LinkType × List String) :=
  [ (LinkType.DOCSEND, ["docsend.com"]),
    (LinkType.PAPERMARK, ["papermark.io", "papermark.com"]),
    (LinkType.PITCH_COM, ["pitch.com"]),
    (LinkType.NOTION, ["notion.so", "notion.site"]),
    (LinkType.GOOGLE_DRIVE, ["drive.google.com", "docs.google.com"]),
    (LinkType.DROPBOX, ["dropbox.com"]),
    (LinkType.LOOM, ["loom.com"]),
    (LinkType.YOUTUBE, ["youtube.com", "youtu.be"]),
    (LinkType.DUNE, ["dune.com"]),
    (LinkType.CALENDAR, ["cal.com", "calendly.com"]),
    (LinkType.LINKEDIN, ["linkedin.com"]),
    (LinkType.TWITTER, ["twitter.com", "x.com"]) ]

/-- `DECK_PATH_PATTERNS`: deck-related path fragments. -/
def deckPathPatterns : List String :=
  ["/deck", "/pitch", "/presentation", "/investor", "/fundrais"]

/-- `PRIORITY_MAP` with the `.get(link_type, 1)` default folded in (the map
binds every constructor, so the default is never used). -/
def priorityMap : LinkType → Nat
  | LinkType.DOCSEND => 100
  | LinkType.PAPERMARK => 90
  | LinkType.PITCH_COM => 88
  | LinkType.PDF_DIRECT => 85
  | LinkType.GOOGLE_DRIVE => 70
  | LinkType.DROPBOX => 60
  | LinkType.NOTION => 50
  | LinkType.LOOM => 40
  | LinkType.YOUTUBE => 35
  | LinkType.DUNE => 15
  | LinkType.WEBSITE => 10
  | LinkType.CALENDAR => 3
  | LinkType.LINKEDIN => 5
  | LinkType.TWITTER => 5
  | LinkType.UNKNOWN => 1

/-- `REDIRECT_DOMAINS`: known redirect/tracking domain fragments. -/
def redirectDomains : List String :=
  [ "getcabal.com", "click.", "track.", "redirect.", "link.", "go.",
    "mailchimp.com", "hubspot.com", "sendgrid.net" ]

/-- A character on which the URL regex `https?://[^\s<>\"')\]]+` stops. -/
def urlStopChar (c : Char) : Bool :=
  isPySpace c || c = '<' || c = '>' || c = '"' || c = '\'' || c = ')' || c = ']'

/-- Case-insensitive literal prefix match (the regex engine under
`re.IGNORECASE`): on success returns the matched characters (in original
case) and the remainder. -/
def matchPrefixCI : (pat s : List Char) → Option (List Char × List Char)
  | [], s => some ([], s)
  | _ :: _, [] => none
  | p :: ps, c :: cs =>
    if c.toLower = p then
      (matchPrefixCI ps cs).map fun pr => (c :: pr.1, pr.2)
    else none

/-- The `[^\s<>\"')\]]+` part of the URL regex: one or more non-stop
characters, taken greedily, appended to the already matched scheme part. -/
def urlBodySplit (pre rest : List Char) : Option (List Char × List Char) :=
  let body := rest.takeWhile fun c => !urlStopChar c
  if body.isEmpty then none
  else some (pre ++ body, rest.dropWhile fun c => !urlStopChar c)

/-- One attempt of the URL regex at the current position: `https?://`
(trying the longer alternative first, as the regex engine does for the
optional `s?`), then one or more non-stop characters, taken greedily.
Returns the match and the remainder of the text. -/
def matchUrlAt (s : List Char) : Option (List Char × List Char) :=
  match matchPrefixCI ("https://".data) s with
  | some pr => urlBodySplit pr.1 pr.2
  | none =>
    match matchPrefixCI ("http://".data) s with
    | some pr => urlBodySplit pr.1 pr.2
    | none => none

theorem matchPrefixCI_length (pat : List Char) :
    ∀ s a r, matchPrefixCI pat s = some (a, r) → s.length = pat.length + r.length := by
  induction pat with
  | nil =>
    intro s a r h
    simp [matchPrefixCI] at h
    simp [h.2]
  | cons p ps ih =>
    intro s a r h
    cases s with
    | nil => simp [matchPrefixCI] at h
    | cons c cs =>
      simp only [matchPrefixCI] at h
      by_cases hc : c.toLower = p
      · rw [if_pos hc] at h
        cases hm : matchPrefixCI ps cs with
        | none => rw [hm] at h; simp at h
        | some pr =>
          rw [hm] at h
          simp at h
          obtain ⟨h1, h2⟩ := h
          subst h2
          have := ih cs pr.1 pr.2 hm
          simp [this]
          omega
      · simp [hc] at h

theorem urlBodySplit_length {pre r m rest : List Char}
    (h : urlBodySplit pre r = some (m, rest)) : rest.length ≤ r.length := by
  unfold urlBodySplit at h
  by_cases hb : (r.takeWhile fun c => !urlStopChar c).isEmpty
  · simp [hb] at h
  · simp only [hb, if_neg, Option.some_inj] at h
    have hd : (r.dropWhile fun c => !urlStopChar c).Sublist r :=
      List.dropWhile_sublist _
    have := hd.length_le
    simp at h
    rw [← h.2]
    exact this

theorem matchUrlAt_length {s m rest : List Char} (h : matchUrlAt s = some (m, rest)) :
    rest.length < s.length := by
  unfold matchUrlAt at h
  cases h8 : matchPrefixCI ("https://".data) s with
  | some pr =>
    have hlen := matchPrefixCI_length _ s pr.1 pr.2 h8
    simp only [h8] at h
    have := urlBodySplit_length h
    simp at hlen
    omega
  | none =>
    simp only [h8] at h
    cases h7 : matchPrefixCI ("http://".data) s with
    | some pr =>
      have hlen := matchPrefixCI_length _ s pr.1 pr.2 h7
      simp only [h7] at h
      have := urlBodySplit_length h
      simp at hlen
      omega
    | none => simp [h7] at h

/-- The scan of `URL_PATTERN.findall`, driven by a fuel counter so that the
definition is structurally recursive (and therefore evaluates inside the
kernel).  Every step consumes at least one character, so fuel
`s.length` is always enough; `findAllUrlsAux_fuel` below shows the result
does not depend on the fuel once it is sufficient. -/
def findAllUrlsAux : (fuel : Nat) → (s : List Char) → List (List Char)
  | 0, _ => []
  | _ + 1, [] => []
  | fuel + 1, c :: cs =>
    match matchUrlAt (c :: cs) with
    | some pr => pr.1 :: findAllUrlsAux fuel pr.2
    | none => findAllUrlsAux fuel cs

/-- `URL_PATTERN.findall(text)`: scan left to right, returning every
non-overlapping match of the URL regex. -/
def findAllUrls (s : List Char) : List (List Char) :=
  findAllUrlsAux s.length s

theorem findAllUrlsAux_fuel :
    ∀ (n fuel fuel' : Nat) (s : List Char), s.length ≤ n → s.length ≤ fuel →
      s.length ≤ fuel' → findAllUrlsAux fuel s = findAllUrlsAux fuel' s := by
  intro n
  induction n with
  | zero =>
    intro fuel fuel' s hn _ _
    have hs : s = [] := List.length_eq_zero.mp (Nat.le_zero.mp hn)
    subst hs
    cases fuel <;> cases fuel' <;> rfl
  | succ n ih =>
    intro fuel fuel' s hn hf hf'
    cases s with
    | nil => cases fuel <;> cases fuel' <;> rfl
    | cons c cs =>
      cases fuel with
      | zero => simp at hf
      | succ f =>
        cases fuel' with
        | zero => simp at hf'
        | succ f' =>
          cases hm : matchUrlAt (c :: cs) with
          | some pr =>
            have hlt := matchUrlAt_length hm
            simp only [findAllUrlsAux, hm]
            simp only [List.length_cons] at hlt hn hf hf'
            exact congrArg (List.cons pr.1) (ih f f' pr.2 (by omega) (by omega) (by omega))
          | none =>
            simp only [findAllUrlsAux, hm]
            simp only [List.length_cons] at hn hf hf'
            exact ih f f' cs (by omega) (by omega) (by omega)

/-- `LinkDetector.extract_urls`. -/
def extractUrls (text : List Char) : List (List Char) :=
  findAllUrls text

/-- `LinkDetector.extract_url_from_redirect`: recover the true destination
from a redirect/tracking URL, or `none`.  The Python body is wrapped in a
blanket `try/except` returning `None`; the only statement that can raise is
`urlparse`, so a parse failure yields `none` here. -/
def extractUrlFromRedirect (url : List Char) : Option (List Char) :=
  match urlparseModel url with
  | none => none
  | some parsed =>
    let domain := lowerChars parsed.netloc
    let isRedirect := redirectDomains.any fun pat => strContains pat.data domain
    if !isRedirect then none
    else
      let urlParams : List String :=
        ["url", "redirect", "target", "dest", "destination", "link", "goto"]
      let rec tryParams : List String → Option (List Char)
        | [] => none
        | param :: more =>
          match qsFirst parsed.query param.data with
          | some v =>
            let target := unquoteChars v
            if strStartsWith ("http".data) target then some target
            else tryParams more
          | none => tryParams more
      tryParams urlParams

/-- `LinkDetector.classify_url`: classify a URL by domain and path.  The
`except` branch (a `urlparse` failure) yields `UNKNOWN`. -/
def classifyUrl (url : List Char) : LinkType :=
  match urlparseModel url with
  | none => LinkType.UNKNOWN
  | some parsed =>
    let domain := lowerChars parsed.netloc
    let path := lowerChars parsed.path
    match domainPatterns.find? fun tp =>
        tp.2.any fun pat => strContains pat.data domain with
    | some tp => tp.1
    | none =>
      if strEndsWith (".pdf".data) path then LinkType.PDF_DIRECT
      else LinkType.WEBSITE

/-- `LinkDetector.is_deck_link`: decide whether a classified link is likely
a pitch deck.  The final path-keyword check is wrapped in `try/except
pass`, so a `urlparse` failure falls through to `False`. -/
def isDeckLink (url : List Char) (link_type : LinkType) : Bool :=
  if link_type = LinkType.DOCSEND ∨ link_type = LinkType.PAPERMARK
      ∨ link_type = LinkType.PITCH_COM then true
  else if link_type = LinkType.PDF_DIRECT then true
  else if link_type = LinkType.LOOM then true
  else if link_type = LinkType.GOOGLE_DRIVE ∧ strContains ("/presentation/".data) url then
    true
  else if link_type = LinkType.GOOGLE_DRIVE ∧ strContains ("/document/".data) url then
    true
  else if link_type = LinkType.CALENDAR then false
  else
    match urlparseModel url with
    | none => false
    | some parsed =>
      let path := lowerChars parsed.path
      deckPathPatterns.any fun pat => strContains pat.data path

/-- The body of the `detect_links` loop for one URL (after redirect
unwrapping and deduplication): classification, deck flag and priority,
including the `+50` deck bonus. -/
def mkDetectedLink (url : List Char) : DetectedLink :=
  let link_type := classifyUrl url
  let is_deck := isDeckLink url link_type
  let priority := priorityMap link_type
  { url := String.mk url
    link_type := link_type
    is_deck := is_deck
    priority := if is_deck then priority + 50 else priority }

/-- The `detect_links` loop: clean each URL, unwrap redirects, skip
duplicates via the `seen_urls` set, and classify the rest in order. -/
def detectLoop (seen : List (List Char)) : List (List Char) → List DetectedLink
  | [] => []
  | url :: rest =>
    let url1 := rstripChars (".,;:!?".data) url
    let url2 :=
      match extractUrlFromRedirect url1 with
      | some target => target
      | none => url1
    if seen.contains url2 then detectLoop seen rest
    else mkDetectedLink url2 :: detectLoop (url2 :: seen) rest

/-- Stable insertion of a link into a list already sorted by descending
priority: the new element goes after every element of equal or higher
priority.  `sorted` with `DetectedLink.__lt__` (which compares
`self.priority > other.priority`) is a stable descending sort; any stable
sort by the same key computes the same list, so insertion sort models it
exactly. -/
def insertLink (x : DetectedLink) : List DetectedLink → List DetectedLink
  | [] => [x]
  | y :: ys =>
    if x.priority < y.priority then y :: insertLink x ys
    else x :: y :: ys

/-- `sorted(links)` with `DetectedLink.__lt__`: stable sort by descending
priority. -/
def sortLinks : List DetectedLink → List DetectedLink
  | [] => []
  | x :: xs => insertLink x (sortLinks xs)

/-- `LinkDetector.detect_links`: extract and classify all links from text,
sorted by priority (highest first). -/
def detectLinks (text : String) : List DetectedLink :=
  sortLinks (detectLoop [] (extractUrls text.data))

/-- `LinkDetector.detect_links` before the final sort: classified links in
order of first appearance in the text. -/
def detectLinksUnsorted (text : String) : List DetectedLink :=
  detectLoop [] (extractUrls text.data)

/-- `LinkDetector.get_all_deck_links`: all deck links, sorted by priority. -/
def getAllDeckLinks (text : String) : List DetectedLink :=
  (detectLinks text).filter fun link => link.is_deck

end LinkDetector

/-! ## Message grouping engine (`bot/utils/grouping.py`)

`BufferedMessage`, `MessageGroup` and the synchronous decision logic of
`MessageGrouper.add_message`, executed under the grouper's lock.  Timestamps
(`datetime`) are integer seconds; the wrapped Telegram `message` object and
the `created_at` timestamp are external glue the decision logic never
reads, and are omitted.  Debounce timers hold no modelled state: a timer
expiry is a separate event (`GrouperEvent.timerFire`), which over-approximates
every schedule the event loop can produce. -/

/-- `BufferedMessage`: a message waiting in the buffer for grouping. -/
structure BufferedMessage where
  message_id : Int
  chat_id : Int
  sender_name : String
  text : String
  timestamp : Int
  reply_to_message_id : Option Int := none
  has_document : Bool := false
  document_name : Option String := none
  is_forwarded : Bool := false
deriving Repr, DecidableEq

/-- `MessageGroup`: a group of related messages representing a single deal. -/
structure MessageGroup where
  messages : List BufferedMessage := []
  primary_sender : String := ""
deriving Repr, DecidableEq

namespace MessageGroup

/-- `MessageGroup.add_message`: append, and adopt the sender as primary
when the current primary sender is falsy (the empty string; appending does
not change `primary_sender`, so the falsiness test reads the original
value). -/
def addMessage (g : MessageGroup) (msg : BufferedMessage) : MessageGroup :=
  if g.primary_sender = "" then
    { messages := g.messages ++ [msg], primary_sender := msg.sender_name }
  else
    { messages := g.messages ++ [msg], primary_sender := g.primary_sender }

/-- `MessageGroup.get_all_message_ids`. -/
def getAllMessageIds (g : MessageGroup) : List Int :=
  g.messages.map fun m => m.message_id

end MessageGroup

/-- The grouper's configuration.  `timeout_seconds` and `quick_timeout`
only choose the debounce timer's real-time duration, which the event model
replaces by nondeterministic `timerFire` events, so only `max_group_size`
appears. -/
structure GrouperConfig where
  max_group_size : Nat := 10
deriving Repr, DecidableEq

namespace MessageGrouper

/-- Python `x in ids` for `x: Optional[int]` against `ids: list[int]`:
`None` is never equal to an `int`. -/
def optIdMem (x : Option Int) (ids : List Int) : Bool :=
  match x with
  | none => false
  | some v => ids.contains v

/-- `MessageGrouper._should_start_new_group`. -/
def shouldStartNewGroup (cfg : GrouperConfig) (msg : BufferedMessage)
    (current_group : Option MessageGroup) (last_time : Option Int) (now : Int) :
    Bool :=
  match current_group with
  | none => true
  | some g =>
    if g.messages.isEmpty then true
    else if (msg.sender_name != g.primary_sender)
        && !(optIdMem msg.reply_to_message_id g.getAllMessageIds) then true
    else if (match last_time with
             | some t => decide (now - t > 120)
             | none => false) then true
    else if g.messages.length ≥ cfg.max_group_size then true
    else false

/-- `MessageGrouper._should_process_immediately`. -/
def shouldProcessImmediately (cfg : GrouperConfig) (group : MessageGroup)
    (latest_msg : BufferedMessage) : Bool :=
  if group.messages.length ≥ cfg.max_group_size then true
  else if latest_msg.has_document
      && (match latest_msg.document_name with
          | some n => n != ""
          | none => false) then
    match latest_msg.document_name with
    | some n =>
      if strEndsWith (".pdf".data) (lowerChars n.data) then
        if group.messages.length = 1 then true else false
      else false
    | none => false
  else false

end MessageGrouper

namespace MessageGrouper

/-- Lookup in a Python dict modelled as an association list
(`dict.get(key)`). -/
def alistGet : (l : List (Int × α)) → (k : Int) → Option α
  | [], _ => none
  | p :: rest, k => if p.1 = k then some p.2 else alistGet rest k

/-- `dict[key] = value`: replace the binding if present, else append. -/
def alistSet (l : List (Int × α)) (k : Int) (v : α) : List (Int × α) :=
  match l with
  | [] => [(k, v)]
  | p :: rest => if p.1 = k then (k, v) :: rest else p :: alistSet rest k v

/-- `dict.pop(key, None)`: remove the binding if present. -/
def alistPop (l : List (Int × α)) (k : Int) : List (Int × α) :=
  match l with
  | [] => []
  | p :: rest => if p.1 = k then rest else p :: alistPop rest k

/-- The grouper's mutable state: `_pending_groups`, `_last_message_time`,
and the groups handed off to `_process_group_wrapper` so far (in dispatch
order).  Timer tasks carry no decision-relevant state and are modelled by
the nondeterministic `timerFire` event instead. -/
structure GrouperState where
  pending_groups : List (Int × MessageGroup) := []
  last_message_time : List (Int × Int) := []
  finalized : List MessageGroup := []
deriving Repr, DecidableEq

/-- `MessageGrouper._finalize_group_unlocked`: pop the group and the
last-activity entry, cancel the timer, and dispatch the group for
processing when it is non-empty. -/
def finalizeGroup (s : GrouperState) (chat_id : Int) : GrouperState :=
  match alistGet s.pending_groups chat_id with
  | some g =>
    if g.messages.isEmpty then
      { s with
        pending_groups := alistPop s.pending_groups chat_id
        last_message_time := alistPop s.last_message_time chat_id }
    else
      { s with
        pending_groups := alistPop s.pending_groups chat_id
        last_message_time := alistPop s.last_message_time chat_id
        finalized := s.finalized ++ [g] }
  | none =>
    { s with
      pending_groups := alistPop s.pending_groups chat_id
      last_message_time := alistPop s.last_message_time chat_id }

/-- The "start new group" half of `add_message`: finalize the existing
non-empty group and place a fresh `MessageGroup()` in the table
(`add_message`, the `if should_new_group:` block). -/
def openNewGroup (s : GrouperState) (chat_id : Int) : GrouperState :=
  let s0 :=
    match alistGet s.pending_groups chat_id with
    | some g => if g.messages.isEmpty then s else finalizeGroup s chat_id
    | none => s
  { s0 with pending_groups := alistSet s0.pending_groups chat_id {} }

/-- The second half of `add_message`: append the message to the current
group, record the arrival time, and either finalize immediately or (in the
real system) re-arm the debounce timer. -/
def appendToGroup (cfg : GrouperConfig) (s1 : GrouperState)
    (buffered : BufferedMessage) (now : Int) : GrouperState :=
  let chat_id := buffered.chat_id
  let newGroup := ((alistGet s1.pending_groups chat_id).getD {}).addMessage buffered
  let s2 := { s1 with
    pending_groups := alistSet s1.pending_groups chat_id newGroup
    last_message_time := alistSet s1.last_message_time chat_id now }
  if shouldProcessImmediately cfg newGroup buffered then finalizeGroup s2 chat_id
  else s2

/-- The synchronous body of `MessageGrouper.add_message` (the part holding
the lock): decide whether to start a new group, finalize the old one and
open a fresh one if so, then append and possibly finalize immediately. -/
def addMessage (cfg : GrouperConfig) (s : GrouperState)
    (buffered : BufferedMessage) (now : Int) : GrouperState :=
  let chat_id := buffered.chat_id
  let startNew := shouldStartNewGroup cfg buffered (alistGet s.pending_groups chat_id)
    (alistGet s.last_message_time chat_id) now
  let s1 := if startNew then openNewGroup s chat_id else s
  appendToGroup cfg s1 buffered now

/-- An event the grouper reacts to: a message arrival at a given time, or a
debounce timer expiry for a conversation (`_timer_callback`, which simply
finalizes whatever is pending). -/
inductive GrouperEvent where
  | arrive (msg : BufferedMessage) (now : Int)
  | timerFire (chat_id : Int)
deriving Repr, DecidableEq

/-- One step of the grouping state machine. -/
def step (cfg : GrouperConfig) (s : GrouperState) : GrouperEvent → GrouperState
  | GrouperEvent.arrive msg now => addMessage cfg s msg now
  | GrouperEvent.timerFire chat_id => finalizeGroup s chat_id

/-- Run the grouper from a state over a list of events. -/
def run (cfg : GrouperConfig) (s : GrouperState) (events : List GrouperEvent) :
    GrouperState :=
  events.foldl (step cfg) s

end MessageGrouper

/-! ## Extraction orchestrator (`deal_extractor/__init__.py`) and the
DocSend fetcher's fallback logic (`deal_extractor/extractors/docsend.py`)

Network and LLM calls are oracles: the per-link fetch result and the LLM
stage's returned result are parameters of the aggregation function, which
models `DealExtractor.extract` steps 1–4 exactly.  The DocSend models
return, alongside the fetch result, a flag recording whether the fallback
technique (Playwright, or the orchestrator's browser agent) was invoked. -/

/-- `FetchedDeck`: content fetched from a deck URL (`models/types.py`).
`pdf_path` is the path string of the materialized document. -/
structure FetchedDeck where
  url : String
  success : Bool
  content : Option String := none
  title : Option String := none
  error : Option String := none
  pdf_path : Option String := none
deriving Repr, DecidableEq

/-- `ExtractionResult`: result of `DealExtractor.extract()`
(`models/types.py`).  The LLM bookkeeping fields (`deals`, `skipped_reason`,
token counts) are glue the aggregation step never branches on and are
omitted. -/
structure ExtractionResult where
  success : Bool
  error : Option String := none
  decks_detected : Nat := 0
  decks_fetched : Nat := 0
  needs_review : Bool := false
  review_reasons : List String := []
deriving Repr, DecidableEq

/-- Python's rendering of `d.error` inside `f"{d.url}: {d.error}"`:
`None` prints as `None`. -/
def optStrRepr (e : Option String) : String :=
  match e with
  | some s => s
  | none => "None"

/-- Python truthiness of `d.content` (`None` and `""` are falsy). -/
def contentTruthy (d : FetchedDeck) : Bool :=
  match d.content with
  | some s => s != ""
  | none => false

/-- `len(d.content)` for the thin-content check (`0` when absent; the code
only reads it under `d.content` truthiness). -/
def contentLen (d : FetchedDeck) : Nat :=
  (d.content.getD "").length

namespace DealExtractor

/-- Steps 1–4 of `DealExtractor.extract`: detect deck links, fetch each
through the `fetch` oracle, run the LLM stage (its returned record is the
`llmResult` oracle), then set the deck stats and the review flag.  File
cleanup tracking (`_pending_cleanup`) is filesystem glue and is omitted. -/
def extract (fetch : DetectedLink → FetchedDeck)
    (llmResult : ExtractionResult) (text : String) : ExtractionResult :=
  let detected_links := LinkDetector.getAllDeckLinks text
  let fetched_decks := detected_links.map fetch
  let decks_fetched := (fetched_decks.filter fun d => d.success).length
  let result := { llmResult with
    decks_detected := detected_links.length
    decks_fetched := decks_fetched }
  let result :=
    if result.decks_detected > 0 && decks_fetched = 0 then
      { result with
        needs_review := true
        review_reasons := (fetched_decks.filter fun d => ¬ d.success).map
          fun d => d.url ++ ": " ++ optStrRepr d.error }
    else result
  let thin_decks := fetched_decks.filter fun d =>
    d.success && contentTruthy d && decide (contentLen d < 500)
  if !thin_decks.isEmpty then
    { result with
      needs_review := true
      review_reasons := result.review_reasons ++ thin_decks.map fun d =>
        d.url ++ ": thin content (" ++ toString (contentLen d) ++
          " chars, may be login page)" }
  else result

end DealExtractor

/-- `ExtractionMode` (`extractors/docsend.py`). -/
inductive ExtractionMode where
  | AUTO
  | PLAYWRIGHT
deriving Repr, DecidableEq

/-- `DocSendExtractionResult` (`models/types.py`); `image_paths` is
filesystem glue and is omitted. -/
structure DocSendExtractionResult where
  success : Bool
  pdf_path : Option String := none
  page_count : Nat := 0
  title : Option String := none
  error : Option String := none
deriving Repr, DecidableEq

namespace DocSendExtractor

/-- `[a-z0-9]` under `re.IGNORECASE`. -/
def isAlnumCI (c : Char) : Bool :=
  ('a' ≤ c.toLower && c.toLower ≤ 'z') || c.isDigit

/-- `[a-z0-9_-]` under `re.IGNORECASE`. -/
def isSlugCI (c : Char) : Bool :=
  isAlnumCI c || c = '_' || c = '-'

/-- One attempt of the regex `/(?:v|view)/[a-z0-9]+/([a-z0-9_-]+)` at the
current position: the alternation tries `v` first, then `view`, each
followed by `/`, a non-empty alphanumeric segment, `/`, and the captured
slug. -/
def matchSlugAt (s : List Char) : Option (List Char) :=
  match s with
  | '/' :: rest =>
    let cont : List Char → Option (List Char) := fun r =>
      let run1 := r.takeWhile isAlnumCI
      if run1.isEmpty then none
      else
        match r.dropWhile isAlnumCI with
        | '/' :: r3 =>
          let slug := r3.takeWhile isSlugCI
          if slug.isEmpty then none else some slug
        | _ => none
    match LinkDetector.matchPrefixCI ("v/".data) rest with
    | some pr =>
      match cont pr.2 with
      | some slug => some slug
      | none =>
        match LinkDetector.matchPrefixCI ("view/".data) rest with
        | some pr2 => cont pr2.2
        | none => none
    | none =>
      match LinkDetector.matchPrefixCI ("view/".data) rest with
      | some pr2 => cont pr2.2
      | none => none
  | _ => none

/-- `re.search` scan of the slug regex over the path. -/
def searchSlug : (s : List Char) → Option (List Char)
  | [] => none
  | c :: cs =>
    match matchSlugAt (c :: cs) with
    | some slug => some slug
    | none => searchSlug cs

/-- `str.split()` with no arguments: split on whitespace runs, discarding
empty fields. -/
def splitPyWhitespace : (s : List Char) → List (List Char)
  | [] => []
  | c :: cs =>
    if isPySpace c then splitPyWhitespace cs
    else
      match splitPyWhitespace cs with
      | [] => [[c]]
      | w :: ws =>
        match cs with
        | [] => [[c]]
        | c2 :: _ => if isPySpace c2 then [c] :: w :: ws else (c :: w) :: ws

/-- `str.capitalize()`: first character upper-cased, the rest lower-cased. -/
def capitalizeWord : List Char → List Char
  | [] => []
  | c :: cs => c.toUpper :: lowerChars cs

/-- `DocSendExtractor._extract_title_from_url`: derive a display title from
the URL slug; the whole body is wrapped in `try/except pass`, so a parse
failure yields `None`. -/
def extractTitleFromUrl (url : List Char) : Option String :=
  match urlparseModel url with
  | none => none
  | some parsed =>
    match searchSlug parsed.path with
    | some slug =>
      let spaced := slug.map fun c => if c = '_' ∨ c = '-' then ' ' else c
      let title := List.intercalate ([' ']) ((splitPyWhitespace spaced).map capitalizeWord)
      if title.length > 2 then some (String.mk title) else none
    | none => none

/-- `BaseExtractor.normalize_url`. -/
def normalizeUrl (url : List Char) : List Char :=
  let u1 := rstripChars (['/']) url
  let u2 := u1.takeWhile fun c => c ≠ '?'
  let u3 := u2.takeWhile fun c => c ≠ '#'
  if strStartsWith ("http".data) u3 then u3 else ("https://".data) ++ u3

/-- Does the API error message mention a passcode
(`result.error and "passcode" in result.error.lower()`)? -/
def errorMentionsPasscode (r : DocSendExtractionResult) : Bool :=
  match r.error with
  | some e => e != "" && strContains ("passcode".data) (lowerChars e.data)
  | none => false

/-- `DocSendExtractor._extract_internal`, with the two underlying
techniques as oracles (`apiResult` for the docsend2pdf API, `browserResult`
for Playwright).  Returns the result and whether the Playwright fallback
ran. -/
def extractInternal (mode : ExtractionMode)
    (apiResult browserResult : DocSendExtractionResult) (url : List Char) :
    DocSendExtractionResult × Bool :=
  match mode with
  | ExtractionMode.PLAYWRIGHT => (browserResult, true)
  | ExtractionMode.AUTO =>
    if apiResult.success then (apiResult, false)
    else if errorMentionsPasscode apiResult then
      ({ success := false
         error := some "Document requires password"
         title := extractTitleFromUrl url }, false)
    else (browserResult, true)

/-- `DocSendExtractor.extract`: the `FetchedDeck`-producing wrapper around
`_extract_internal` (email guard, URL normalisation, result conversion).
`emailConfigured` is `bool(self.email)`. -/
def extract (emailConfigured : Bool) (mode : ExtractionMode)
    (apiResult browserResult : DocSendExtractionResult) (url : String) :
    FetchedDeck × Bool :=
  if !emailConfigured then
    ({ url := url, success := false, error := some "DocSend email not configured" },
     false)
  else
    let nurl := String.mk (normalizeUrl url.data)
    let rb := extractInternal mode apiResult browserResult nurl.data
    let result := rb.1
    if !result.success then
      ({ url := nurl, success := false, error := result.error,
         title := result.title }, rb.2)
    else
      ({ url := nurl, success := true, title := result.title,
         pdf_path := result.pdf_path }, rb.2)

end DocSendExtractor

/-- `PDFExtractionResult` (`models/types.py`); path fields are filesystem
glue and are omitted. -/
structure PDFExtractionResult where
  success : Bool
  title : Option String := none
  text_content : String := ""
  error : Option String := none
deriving Repr, DecidableEq

/-- Python `a or b` on two optional strings (`result.title or
pdf_result.title`): the first operand wins when truthy. -/
def pyStrOr (a b : Option String) : Option String :=
  match a with
  | some s => if s = "" then b else some s
  | none => b

/-- Python `a or default` for an optional string against a literal
default (`pdf_result.error or "..."`). -/
def pyStrOrDefault (a : Option String) (default : String) : String :=
  match a with
  | some s => if s = "" then default else s
  | none => default

namespace DealExtractor

/-- The `LinkType.DOCSEND` branch of `DealExtractor._fetch_deck`, with the
DocSend fetch, the OCR text extraction and the browser-agent fallback as
oracles.  `docsendResult` is what `docsend_extractor.extract` returned for
this link, `pdfExtract` maps a saved PDF's path to its OCR result, and
`browserAgentResult` is what the opt-in browser agent would return.  The
second component records whether the browser-agent fallback was invoked.
A `Path` object is always truthy in Python, so `result.pdf_path` truthiness
is `isSome`. -/
def fetchDeckDocsend (docsendConfigured browserAgentConfigured : Bool)
    (docsendResult : FetchedDeck) (pdfExtract : String → PDFExtractionResult)
    (browserAgentResult : FetchedDeck) (link : DetectedLink) :
    FetchedDeck × Bool :=
  if !docsendConfigured then
    ({ url := link.url, success := false,
       error := some "DocSend extraction not configured (no email)" }, false)
  else
    let result := docsendResult
    match result.pdf_path with
    | some p =>
      if result.success then
        let pdf_result := pdfExtract p
        if pdf_result.success && pdf_result.text_content != "" then
          ({ url := link.url, success := true,
             content := some pdf_result.text_content,
             title := pyStrOr result.title pdf_result.title,
             pdf_path := some p }, false)
        else
          let error_detail := pyStrOrDefault pdf_result.error
            "empty text (image-only PDF, OCR may be needed)"
          ({ url := link.url, success := false,
             error := some ("PDF downloaded but text extraction failed: " ++ error_detail),
             title := result.title, pdf_path := some p }, false)
      else
        if browserAgentConfigured then (browserAgentResult, true)
        else (result, false)
    | none =>
      if !result.success && browserAgentConfigured then (browserAgentResult, true)
      else (result, false)

end DealExtractor

/-! ## Lemmas about the detector's sort and deduplication -/

namespace LinkDetector

/-- The descending-priority order `sorted(links)` produces (`__lt__`
compares `self.priority > other.priority`). -/
def priorityGE (a b : DetectedLink) : Prop := b.priority ≤ a.priority

theorem mkDetectedLink_url (u : List Char) : (mkDetectedLink u).url = String.mk u := rfl

theorem insertLink_perm (x : DetectedLink) (l : List DetectedLink) :
    List.Perm (insertLink x l) (x :: l) := by
  induction l with
  | nil => simp [insertLink]
  | cons y ys ih =>
    unfold insertLink
    by_cases hxy : x.priority < y.priority
    · rw [if_pos hxy]
      exact (ih.cons y).trans (List.Perm.swap x y ys)
    · rw [if_neg hxy]

theorem sortLinks_perm (l : List DetectedLink) : List.Perm (sortLinks l) l := by
  induction l with
  | nil => simp [sortLinks]
  | cons x xs ih =>
    unfold sortLinks
    exact (insertLink_perm x (sortLinks xs)).trans (ih.cons x)

theorem mem_insertLink {z x : DetectedLink} {l : List DetectedLink} :
    z ∈ insertLink x l ↔ z = x ∨ z ∈ l := by
  rw [(insertLink_perm x l).mem_iff]
  simp

theorem sorted_insertLink {x : DetectedLink} {l : List DetectedLink}
    (h : List.Sorted priorityGE l) : List.Sorted priorityGE (insertLink x l) := by
  induction l with
  | nil => simp [insertLink, List.sorted_singleton]
  | cons y ys ih =>
    rw [List.sorted_cons] at h
    unfold insertLink
    by_cases hxy : x.priority < y.priority
    · rw [if_pos hxy, List.sorted_cons]
      constructor
      · intro z hz
        rcases mem_insertLink.mp hz with hzx | hzy
        · subst hzx
          exact le_of_lt hxy
        · exact h.1 z hzy
      · exact ih h.2
    · rw [if_neg hxy, List.sorted_cons]
      constructor
      · intro z hz
        rcases List.mem_cons.mp hz with hzy | hzys
        · subst hzy
          exact Nat.le_of_not_lt hxy
        · exact le_trans (h.1 z hzys) (Nat.le_of_not_lt hxy)
      · rw [List.sorted_cons]
        exact h

theorem sortLinks_sorted (l : List DetectedLink) :
    List.Sorted priorityGE (sortLinks l) := by
  induction l with
  | nil => simp [sortLinks]
  | cons x xs ih => exact sorted_insertLink ih

theorem filter_insertLink (x : DetectedLink) (l : List DetectedLink) (p : Nat) :
    (insertLink x l).filter (fun d => decide (d.priority = p)) =
      if x.priority = p then x :: l.filter (fun d => decide (d.priority = p))
      else l.filter (fun d => decide (d.priority = p)) := by
  induction l with
  | nil =>
    simp only [insertLink]
    by_cases hxp : x.priority = p <;> simp [List.filter_cons, hxp]
  | cons y ys ih =>
    unfold insertLink
    by_cases hxy : x.priority < y.priority
    · rw [if_pos hxy]
      by_cases hxp : x.priority = p
      · have hyp : ¬ y.priority = p := by omega
        rw [List.filter_cons, List.filter_cons, ih]
        simp [hxp, hyp]
      · rw [List.filter_cons, List.filter_cons, ih]
        simp only [if_neg hxp]
    · rw [if_neg hxy]
      by_cases hxp : x.priority = p
      · simp [List.filter_cons, hxp]
      · simp [List.filter_cons, hxp]

theorem sortLinks_filter (l : List DetectedLink) (p : Nat) :
    (sortLinks l).filter (fun d => decide (d.priority = p)) =
      l.filter (fun d => decide (d.priority = p)) := by
  induction l with
  | nil => simp [sortLinks]
  | cons x xs ih =>
    unfold sortLinks
    rw [filter_insertLink]
    by_cases hxp : x.priority = p
    · simp [List.filter_cons, hxp, ih]
    · simp [List.filter_cons, hxp, ih]

theorem mem_detectLoop {d : DetectedLink} :
    ∀ (urls : List (List Char)) (seen : List (List Char)),
      d ∈ detectLoop seen urls → ∃ u, d = mkDetectedLink u := by
  intro urls
  induction urls with
  | nil => intro seen h; simp [detectLoop] at h
  | cons url rest ih =>
    intro seen h
    simp only [detectLoop] at h
    set url2 :=
      (match extractUrlFromRedirect (rstripChars (".,;:!?".data) url) with
       | some target => target
       | none => rstripChars (".,;:!?".data) url) with hurl2
    by_cases hseen : seen.contains url2
    · rw [if_pos hseen] at h
      exact ih seen h
    · rw [if_neg hseen] at h
      rcases List.mem_cons.mp h with hd | hd
      · exact ⟨url2, hd⟩
      · exact ih (url2 :: seen) hd

theorem detectLoop_not_seen {d : DetectedLink} :
    ∀ (urls : List (List Char)) (seen : List (List Char)),
      d ∈ detectLoop seen urls → seen.contains d.url.data = false := by
  intro urls
  induction urls with
  | nil => intro seen h; simp [detectLoop] at h
  | cons url rest ih =>
    intro seen h
    simp only [detectLoop] at h
    set url2 :=
      (match extractUrlFromRedirect (rstripChars (".,;:!?".data) url) with
       | some target => target
       | none => rstripChars (".,;:!?".data) url) with hurl2
    by_cases hseen : seen.contains url2
    · rw [if_pos hseen] at h
      exact ih seen h
    · rw [if_neg hseen] at h
      rcases List.mem_cons.mp h with hd | hd
      · subst hd
        rw [mkDetectedLink_url]
        simpa using hseen
      · have := ih (url2 :: seen) hd
        simp only [List.contains_cons, Bool.or_eq_false_iff] at this
        exact this.2

theorem detectLoop_url_nodup :
    ∀ (urls : List (List Char)) (seen : List (List Char)),
      ((detectLoop seen urls).map (fun d => d.url)).Nodup := by
  intro urls
  induction urls with
  | nil => intro seen; simp [detectLoop]
  | cons url rest ih =>
    intro seen
    simp only [detectLoop]
    set url2 :=
      (match extractUrlFromRedirect (rstripChars (".,;:!?".data) url) with
       | some target => target
       | none => rstripChars (".,;:!?".data) url) with hurl2
    by_cases hseen : seen.contains url2
    · rw [if_pos hseen]
      exact ih seen
    · rw [if_neg hseen]
      simp only [List.map_cons, List.nodup_cons]
      refine ⟨?_, ih (url2 :: seen)⟩
      intro hmem
      obtain ⟨d, hd, hdu⟩ := List.mem_map.mp hmem
      have hns := detectLoop_not_seen rest (url2 :: seen) hd
      rw [hdu, mkDetectedLink_url] at hns
      simp [List.contains_cons] at hns

end LinkDetector

/-! ## Lemmas about the grouper's state -/

namespace MessageGroup

theorem addMessage_messages (g : MessageGroup) (m : BufferedMessage) :
    (g.addMessage m).messages = g.messages ++ [m] := by
  simp only [addMessage]
  split <;> rfl

theorem addMessage_primary_of_ne (g : MessageGroup) (m : BufferedMessage)
    (h : g.primary_sender ≠ "") : (g.addMessage m).primary_sender = g.primary_sender := by
  simp only [addMessage, if_neg h]

theorem addMessage_primary_of_empty (g : MessageGroup) (m : BufferedMessage)
    (h : g.primary_sender = "") : (g.addMessage m).primary_sender = m.sender_name := by
  simp only [addMessage, if_pos h]

end MessageGroup

namespace MessageGrouper

theorem mem_alistSet {α : Type} {p : Int × α} {l : List (Int × α)} {k : Int} {v : α} :
    p ∈ alistSet l k v → p = (k, v) ∨ p ∈ l := by
  induction l with
  | nil => intro h; simpa [alistSet] using h
  | cons q rest ih =>
    intro h
    simp only [alistSet] at h
    by_cases hq : q.1 = k
    · rw [if_pos hq] at h
      rcases List.mem_cons.mp h with h1 | h1
      · exact Or.inl h1
      · exact Or.inr (List.mem_cons_of_mem q h1)
    · rw [if_neg hq] at h
      rcases List.mem_cons.mp h with h1 | h1
      · exact Or.inr (h1 ▸ List.mem_cons_self q rest)
      · rcases ih h1 with h2 | h2
        · exact Or.inl h2
        · exact Or.inr (List.mem_cons_of_mem q h2)

theorem mem_alistPop {α : Type} {p : Int × α} {l : List (Int × α)} {k : Int} :
    p ∈ alistPop l k → p ∈ l := by
  induction l with
  | nil => intro h; simpa [alistPop] using h
  | cons q rest ih =>
    intro h
    simp only [alistPop] at h
    by_cases hq : q.1 = k
    · rw [if_pos hq] at h
      exact List.mem_cons_of_mem q h
    · rw [if_neg hq] at h
      rcases List.mem_cons.mp h with h1 | h1
      · exact h1 ▸ List.mem_cons_self q rest
      · exact List.mem_cons_of_mem q (ih h1)

theorem alistGet_mem {α : Type} {l : List (Int × α)} {k : Int} {v : α}
    (h : alistGet l k = some v) : (k, v) ∈ l := by
  induction l with
  | nil => simp [alistGet] at h
  | cons q rest ih =>
    simp only [alistGet] at h
    by_cases hq : q.1 = k
    · rw [if_pos hq] at h
      have hv : q.2 = v := by simpa using h
      have hqkv : (k, v) = q := by
        cases q with
        | mk a b =>
          simp at hq hv
          simp [hq, hv]
      rw [hqkv]
      exact List.mem_cons_self q rest
    · rw [if_neg hq] at h
      exact List.mem_cons_of_mem q (ih h)

theorem alistGet_alistSet_self {α : Type} (l : List (Int × α)) (k : Int) (v : α) :
    alistGet (alistSet l k v) k = some v := by
  induction l with
  | nil => simp [alistSet, alistGet]
  | cons q rest ih =>
    simp only [alistSet]
    by_cases hq : q.1 = k
    · rw [if_pos hq]
      simp [alistGet]
    · rw [if_neg hq]
      simp only [alistGet, if_neg hq]
      exact ih

theorem mem_alistPop_alistSet {α : Type} {p : Int × α} {l : List (Int × α)}
    {k : Int} {v : α} : p ∈ alistPop (alistSet l k v) k → p ∈ l := by
  induction l with
  | nil => intro h; simp [alistSet, alistPop] at h
  | cons q rest ih =>
    intro h
    simp only [alistSet] at h
    by_cases hq : q.1 = k
    · rw [if_pos hq] at h
      simp only [alistPop, if_pos rfl] at h
      exact List.mem_cons_of_mem q h
    · rw [if_neg hq] at h
      simp only [alistPop, if_neg hq] at h
      rcases List.mem_cons.mp h with h1 | h1
      · exact h1 ▸ List.mem_cons_self q rest
      · exact List.mem_cons_of_mem q (ih h1)

/-- The size invariant of the grouping engine: every open group is strictly
below the configured maximum, and every finalized group never exceeded it. -/
def sizeInv (cfg : GrouperConfig) (s : GrouperState) : Prop :=
  (∀ p ∈ s.pending_groups, p.2.messages.length < cfg.max_group_size) ∧
  (∀ g ∈ s.finalized, g.messages.length ≤ cfg.max_group_size)

theorem finalizeGroup_sizeInv {cfg : GrouperConfig} {s : GrouperState}
    (hs : sizeInv cfg s) (chat_id : Int) : sizeInv cfg (finalizeGroup s chat_id) := by
  obtain ⟨hp, hf⟩ := hs
  cases hg : alistGet s.pending_groups chat_id with
  | none =>
    simp only [finalizeGroup, hg]
    exact ⟨fun p hm => hp p (mem_alistPop hm), hf⟩
  | some g =>
    by_cases he : g.messages.isEmpty
    · simp only [finalizeGroup, hg, if_pos he]
      exact ⟨fun p hm => hp p (mem_alistPop hm), hf⟩
    · simp only [finalizeGroup, hg, if_neg he]
      refine ⟨fun p hm => hp p (mem_alistPop hm), fun g' hm => ?_⟩
      rcases List.mem_append.mp hm with h1 | h1
      · exact hf g' h1
      · have hgg : g' = g := by simpa using h1
        subst hgg
        exact le_of_lt (hp _ (alistGet_mem hg))

theorem appendToGroup_sizeInv {cfg : GrouperConfig} {s1 : GrouperState}
    (hs1 : sizeInv cfg s1) (msg : BufferedMessage) (now : Int)
    (hlen : ((alistGet s1.pending_groups msg.chat_id).getD {}).messages.length <
      cfg.max_group_size) :
    sizeInv cfg (appendToGroup cfg s1 msg now) := by
  simp only [appendToGroup]
  set baseGroup := (alistGet s1.pending_groups msg.chat_id).getD {} with hbase
  set newGroup := baseGroup.addMessage msg with hnew
  have hnewlen : newGroup.messages.length ≤ cfg.max_group_size := by
    rw [hnew, MessageGroup.addMessage_messages]
    simp only [List.length_append, List.length_singleton]
    omega
  by_cases himm : shouldProcessImmediately cfg newGroup msg
  · rw [if_pos himm]
    simp only [finalizeGroup, alistGet_alistSet_self]
    by_cases he : newGroup.messages.isEmpty
    · rw [if_pos he]
      exact ⟨fun p hm => hs1.1 p (mem_alistPop_alistSet hm), hs1.2⟩
    · rw [if_neg he]
      refine ⟨fun p hm => hs1.1 p (mem_alistPop_alistSet hm), fun g' hm => ?_⟩
      rcases List.mem_append.mp hm with h1 | h1
      · exact hs1.2 g' h1
      · have hgg : g' = newGroup := by simpa using h1
        subst hgg
        exact hnewlen
  · rw [if_neg himm]
    have hnotmax : newGroup.messages.length < cfg.max_group_size := by
      by_contra hcon
      have hge : cfg.max_group_size ≤ newGroup.messages.length := by omega
      have himm2 : shouldProcessImmediately cfg newGroup msg = true := by
        unfold shouldProcessImmediately
        simp [hge]
      exact himm himm2
    refine ⟨fun p hm => ?_, hs1.2⟩
    rcases mem_alistSet hm with h1 | h1
    · rw [h1]
      exact hnotmax
    · exact hs1.1 p h1

theorem openNewGroup_sizeInv {cfg : GrouperConfig} {s : GrouperState}
    (hmax : 1 ≤ cfg.max_group_size) (hs : sizeInv cfg s) (chat_id : Int) :
    sizeInv cfg (openNewGroup s chat_id) := by
  simp only [openNewGroup]
  set s0 : GrouperState :=
    (match alistGet s.pending_groups chat_id with
     | some g => if g.messages.isEmpty then s else finalizeGroup s chat_id
     | none => s) with hs0
  have hs0inv : sizeInv cfg s0 := by
    rw [hs0]
    cases alistGet s.pending_groups chat_id with
    | none => exact hs
    | some g =>
      by_cases he : g.messages.isEmpty
      · simpa [he] using hs
      · simpa [he] using finalizeGroup_sizeInv hs chat_id
  refine ⟨fun p hm => ?_, hs0inv.2⟩
  rcases mem_alistSet hm with h1 | h1
  · rw [h1]
    simpa using hmax
  · exact hs0inv.1 p h1

theorem openNewGroup_get (s : GrouperState) (chat_id : Int) :
    alistGet (openNewGroup s chat_id).pending_groups chat_id = some {} := by
  simp only [openNewGroup]
  exact alistGet_alistSet_self _ _ _

theorem addMessage_sizeInv {cfg : GrouperConfig} {s : GrouperState}
    (hmax : 1 ≤ cfg.max_group_size) (hs : sizeInv cfg s)
    (msg : BufferedMessage) (now : Int) :
    sizeInv cfg (addMessage cfg s msg now) := by
  simp only [addMessage]
  by_cases hstart : shouldStartNewGroup cfg msg (alistGet s.pending_groups msg.chat_id)
      (alistGet s.last_message_time msg.chat_id) now
  · rw [if_pos hstart]
    refine appendToGroup_sizeInv (openNewGroup_sizeInv hmax hs msg.chat_id) msg now ?_
    rw [openNewGroup_get]
    simpa using hmax
  · rw [if_neg hstart]
    refine appendToGroup_sizeInv hs msg now ?_
    cases hc : alistGet s.pending_groups msg.chat_id with
    | none => simpa using hmax
    | some g =>
      simp only [Option.getD_some]
      exact hs.1 (msg.chat_id, g) (alistGet_mem hc)

theorem step_sizeInv {cfg : GrouperConfig} {s : GrouperState}
    (hmax : 1 ≤ cfg.max_group_size) (hs : sizeInv cfg s) (e : GrouperEvent) :
    sizeInv cfg (step cfg s e) := by
  cases e with
  | arrive msg now => exact addMessage_sizeInv hmax hs msg now
  | timerFire chat_id => exact finalizeGroup_sizeInv hs chat_id

theorem run_sizeInv {cfg : GrouperConfig} (hmax : 1 ≤ cfg.max_group_size) :
    ∀ (events : List GrouperEvent) (s : GrouperState),
      sizeInv cfg s → sizeInv cfg (run cfg s events) := by
  intro events
  induction events with
  | nil => intro s hs; simpa [run] using hs
  | cons e rest ih =>
    intro s hs
    rw [run, List.foldl_cons]
    exact ih (step cfg s e) (step_sizeInv hmax hs e)


theorem shouldStartNewGroup_iff (cfg : GrouperConfig) (msg : BufferedMessage)
    (g : MessageGroup) (lt : Option Int) (now : Int) :
    shouldStartNewGroup cfg msg (some g) lt now = true ↔
      (g.messages = [] ∨
       (msg.sender_name ≠ g.primary_sender ∧
         optIdMem msg.reply_to_message_id g.getAllMessageIds = false) ∨
       (∃ t, lt = some t ∧ now - t > 120) ∨
       cfg.max_group_size ≤ g.messages.length) := by
  simp only [shouldStartNewGroup]
  by_cases h1 : g.messages.isEmpty
  · simp [h1, List.isEmpty_iff.mp h1]
  · rw [if_neg h1]
    replace h1 : ¬ g.messages = [] := by
      simpa [List.isEmpty_iff] using h1
    by_cases h2 : (msg.sender_name != g.primary_sender)
        && !(optIdMem msg.reply_to_message_id g.getAllMessageIds)
    · rw [if_pos h2]
      simp only [Bool.and_eq_true, bne_iff_ne, Bool.not_eq_true'] at h2
      constructor
      · intro _
        exact Or.inr (Or.inl h2)
      · intro _
        rfl
    · rw [if_neg h2]
      simp only [Bool.and_eq_true, bne_iff_ne, Bool.not_eq_true'] at h2
      rw [Classical.not_and_iff_or_not_not] at h2
      by_cases h3 : (match lt with
          | some t => decide (now - t > 120)
          | none => false) = true
      · rw [if_pos h3]
        cases lt with
        | none => simp at h3
        | some t =>
          simp only [decide_eq_true_eq] at h3
          constructor
          · intro _
            exact Or.inr (Or.inr (Or.inl ⟨t, rfl, h3⟩))
          · intro _
            rfl
      · rw [if_neg h3]
        by_cases h4 : g.messages.length ≥ cfg.max_group_size
        · rw [if_pos h4]
          constructor
          · intro _
            exact Or.inr (Or.inr (Or.inr h4))
          · intro _
            rfl
        · rw [if_neg h4]
          constructor
          · intro hfalse
            simp at hfalse
          · intro hdisj
            rcases hdisj with hd | hd | hd | hd
            · exact absurd hd h1
            · rcases h2 with h2 | h2
              · exact absurd hd.1 (by simpa using h2)
              · exact absurd hd.2 (by simpa using h2)
            · obtain ⟨t, hlt, hgap⟩ := hd
              subst hlt
              simp only [decide_eq_true_eq] at h3
              exact absurd hgap h3
            · exact absurd hd h4

theorem shouldStartNewGroup_of_max (cfg : GrouperConfig) (msg : BufferedMessage)
    (g : MessageGroup) (lt : Option Int) (now : Int)
    (hge : cfg.max_group_size ≤ g.messages.length) :
    shouldStartNewGroup cfg msg (some g) lt now = true :=
  (shouldStartNewGroup_iff cfg msg g lt now).mpr (Or.inr (Or.inr (Or.inr hge)))

theorem shouldProcessImmediately_of_max (cfg : GrouperConfig) (g : MessageGroup)
    (msg : BufferedMessage) (hge : cfg.max_group_size ≤ g.messages.length) :
    shouldProcessImmediately cfg g msg = true := by
  simp only [shouldProcessImmediately]
  simp [hge]

end MessageGrouper

/-! ## Lemmas about the orchestrator's aggregation -/

namespace DealExtractor

theorem extract_decks_detected (fetch : DetectedLink → FetchedDeck)
    (llmResult : ExtractionResult) (text : String) :
    (extract fetch llmResult text).decks_detected =
      (LinkDetector.getAllDeckLinks text).length := by
  simp only [extract]
  split <;> split <;> rfl

theorem extract_decks_fetched (fetch : DetectedLink → FetchedDeck)
    (llmResult : ExtractionResult) (text : String) :
    (extract fetch llmResult text).decks_fetched =
      (((LinkDetector.getAllDeckLinks text).map fetch).filter fun d => d.success).length := by
  simp only [extract]
  split <;> split <;> rfl

end DealExtractor

/-! ## The claims -/

set_option maxRecDepth 10000

/-- C4: for every extraction run, the returned ExtractionResult satisfies
`decks_fetched ≤ decks_detected`: the count of successful fetches never
exceeds the count of detected deck links (the fetched list holds one entry
per detected link, and the fetched count is the number of successes among
them). -/
theorem c4_fetched_le_detected (fetch : DetectedLink → FetchedDeck)
    (llmResult : ExtractionResult) (text : String) :
    (DealExtractor.extract fetch llmResult text).decks_fetched ≤
      (DealExtractor.extract fetch llmResult text).decks_detected := by
  rw [DealExtractor.extract_decks_detected, DealExtractor.extract_decks_fetched]
  exact le_trans (List.length_filter_le _ _) (by simp)

/-- C2 (counterexample): two occurrences of one URL that differ only in the
letter-case of the host — and therefore denote the same normalized URL —
produce two `DetectedLink` entries, not one: `detect_links` deduplicates by
exact string equality, not by normalized URL. -/
theorem c2_counterexample :
    (LinkDetector.detectLinks
        "https://docsend.com/view/abc and https://DocSend.com/view/abc").map
        (fun d => d.url) =
      ["https://docsend.com/view/abc", "https://DocSend.com/view/abc"] ∧
    lowerChars ("https://DocSend.com/view/abc".data) =
      lowerChars ("https://docsend.com/view/abc".data) := by
  constructor
  · decide
  · decide

/-- C2 (amended): `detect_links` returns at most one `DetectedLink` per
exact URL string (after trailing-punctuation stripping and redirect
unwrapping): the entries' `url` fields are pairwise distinct.  Occurrences
that differ in raw spelling (host letter-case, trailing slash) are distinct
strings and are not collapsed. -/
theorem c2_dedup_by_exact_url (text : String) :
    ((LinkDetector.detectLinks text).map (fun d => d.url)).Nodup := by
  unfold LinkDetector.detectLinks
  have hperm :=
    (LinkDetector.sortLinks_perm
      (LinkDetector.detectLoop [] (LinkDetector.extractUrls text.data))).map
      (fun d => d.url)
  exact hperm.nodup_iff.mpr
    (LinkDetector.detectLoop_url_nodup (LinkDetector.extractUrls text.data) [])

/-- C9: URL classification is total — every Python-exception branch is an
explicit alternative of the model, and a URL-shaped substring whose parsing
fails (`urlparseModel url = none`, the `urlparse` `ValueError`) is
classified as `UNKNOWN`, is not a deck link, and enters the result with the
minimal priority 1 rather than raising. -/
theorem c9_unknown_on_parse_failure (url : List Char)
    (h : urlparseModel url = none) :
    LinkDetector.classifyUrl url = LinkType.UNKNOWN ∧
    LinkDetector.isDeckLink url LinkType.UNKNOWN = false ∧
    LinkDetector.mkDetectedLink url =
      { url := String.mk url, link_type := LinkType.UNKNOWN,
        is_deck := false, priority := 1 } := by
  have h1 : LinkDetector.classifyUrl url = LinkType.UNKNOWN := by
    simp [LinkDetector.classifyUrl, h]
  have h2 : LinkDetector.isDeckLink url LinkType.UNKNOWN = false := by
    simp [LinkDetector.isDeckLink, h]
  refine ⟨h1, h2, ?_⟩
  simp [LinkDetector.mkDetectedLink, h1, h2, LinkDetector.priorityMap]

/-- C9 (witness): `https://[` — extractable by the URL regex, rejected by
`urlparse` (unbalanced bracket in the netloc) — is classified `UNKNOWN`
with priority 1. -/
theorem c9_unknown_witness :
    urlparseModel ("https://[".data) = none ∧
    (LinkDetector.classifyUrl ("https://[".data) = LinkType.UNKNOWN ∧
     LinkDetector.isDeckLink ("https://[".data) LinkType.UNKNOWN = false ∧
     LinkDetector.mkDetectedLink ("https://[".data) =
       { url := String.mk ("https://[".data), link_type := LinkType.UNKNOWN,
         is_deck := false, priority := 1 }) :=
  ⟨by decide, c9_unknown_on_parse_failure ("https://[".data) (by decide)⟩

/-- C8 (counterexample): when the first message admitted to a group has an
empty sender name (possible: `from_telegram_message` yields `""` when the
message has no user), the primary sender is *not* the first message's
sender — a later message's sender takes over, because `add_message` only
sets `primary_sender` while it is falsy. -/
theorem c8_counterexample :
    (((({} : MessageGroup).addMessage
          { message_id := 1, chat_id := 7, sender_name := "", text := "hi",
            timestamp := 0 }).addMessage
        { message_id := 2, chat_id := 7, sender_name := "Bob", text := "more",
          timestamp := 5 }).messages.map fun m => m.sender_name) = ["", "Bob"] ∧
    ((({} : MessageGroup).addMessage
          { message_id := 1, chat_id := 7, sender_name := "", text := "hi",
            timestamp := 0 }).addMessage
        { message_id := 2, chat_id := 7, sender_name := "Bob", text := "more",
          timestamp := 5 }).primary_sender = "Bob" ∧
    ("Bob" : String) ≠ "" := by
  refine ⟨rfl, rfl, ?_⟩
  decide

/-- C8 (amended): for a group whose first admitted message has a non-empty
sender name, the primary sender equals that first sender and appending
further messages never changes it (the messages list is the admission
order).  When the first sender name is empty the primary sender is instead
the first non-empty sender admitted later, as the counterexample shows. -/
theorem c8_primary_sender (m : BufferedMessage) (rest : List BufferedMessage)
    (h : m.sender_name ≠ "") :
    (rest.foldl MessageGroup.addMessage (({} : MessageGroup).addMessage m)).primary_sender
      = m.sender_name ∧
    (rest.foldl MessageGroup.addMessage (({} : MessageGroup).addMessage m)).messages
      = m :: rest := by
  have hfirst : (({} : MessageGroup).addMessage m).primary_sender = m.sender_name :=
    MessageGroup.addMessage_primary_of_empty _ _ rfl
  have hmsgs : (({} : MessageGroup).addMessage m).messages = [m] := by
    rw [MessageGroup.addMessage_messages]
    rfl
  have key : ∀ (l : List BufferedMessage) (g : MessageGroup),
      g.primary_sender ≠ "" →
      (l.foldl MessageGroup.addMessage g).primary_sender = g.primary_sender ∧
      (l.foldl MessageGroup.addMessage g).messages = g.messages ++ l := by
    intro l
    induction l with
    | nil => intro g hg; simp
    | cons x xs ih =>
      intro g hg
      rw [List.foldl_cons]
      have hp := MessageGroup.addMessage_primary_of_ne g x hg
      have hne : (g.addMessage x).primary_sender ≠ "" := by
        rw [hp]; exact hg
      obtain ⟨ih1, ih2⟩ := ih (g.addMessage x) hne
      refine ⟨by rw [ih1, hp], ?_⟩
      rw [ih2, MessageGroup.addMessage_messages]
      simp
  have hne : (({} : MessageGroup).addMessage m).primary_sender ≠ "" := by
    rw [hfirst]; exact h
  obtain ⟨k1, k2⟩ := key rest _ hne
  refine ⟨by rw [k1, hfirst], ?_⟩
  rw [k2, hmsgs]
  simp

/-- C8 (witness): a concrete two-message group with a non-empty first
sender keeps "Alice" as primary sender. -/
theorem c8_primary_sender_witness :
    (("Alice" : String) ≠ "") ∧
    (([{ message_id := 2, chat_id := 7, sender_name := "Bob", text := "b",
          timestamp := 5, reply_to_message_id := some 1 }].foldl
        MessageGroup.addMessage
        (({} : MessageGroup).addMessage
          { message_id := 1, chat_id := 7, sender_name := "Alice", text := "a",
            timestamp := 0 })).primary_sender = "Alice" ∧
     ([{ message_id := 2, chat_id := 7, sender_name := "Bob", text := "b",
          timestamp := 5, reply_to_message_id := some 1 }].foldl
        MessageGroup.addMessage
        (({} : MessageGroup).addMessage
          { message_id := 1, chat_id := 7, sender_name := "Alice", text := "a",
            timestamp := 0 })).messages =
       [{ message_id := 1, chat_id := 7, sender_name := "Alice", text := "a",
          timestamp := 0 },
        { message_id := 2, chat_id := 7, sender_name := "Bob", text := "b",
          timestamp := 5, reply_to_message_id := some 1 }]) :=
  ⟨by decide,
   c8_primary_sender
     { message_id := 1, chat_id := 7, sender_name := "Alice", text := "a",
       timestamp := 0 }
     [{ message_id := 2, chat_id := 7, sender_name := "Bob", text := "b",
        timestamp := 5, reply_to_message_id := some 1 }]
     (by decide)⟩

namespace LinkDetector

theorem mem_detectLinks_priority (text : String) (d : DetectedLink)
    (hd : d ∈ detectLinks text) :
    d.priority = priorityMap d.link_type + (if d.is_deck then 50 else 0) := by
  unfold detectLinks at hd
  have hd' := (sortLinks_perm _).mem_iff.mp hd
  obtain ⟨u, rfl⟩ := mem_detectLoop _ _ hd'
  by_cases hdeck : isDeckLink u (classifyUrl u) <;>
    simp [mkDetectedLink, hdeck]

end LinkDetector

/-- The first of the two same-sender messages of the C3 scenario,
arriving at second 0. -/
def aliceMsg1 : BufferedMessage :=
  { message_id := 1, chat_id := 7, sender_name := "Alice",
    text := "deal incoming", timestamp := 0 }

/-- The second message of the C3 scenario: same sender, 150 seconds later,
no reply relation. -/
def aliceMsg2 : BufferedMessage :=
  { message_id := 2, chat_id := 7, sender_name := "Alice",
    text := "more details", timestamp := 150 }

/-- C3: on message arrival a new group is started iff there is no open
group (or it is empty), or the sender differs and the message does not
reply to a message of the open group, or more than 120 seconds passed
since the last accepted message, or the open group is at the configured
maximum size; in particular, two messages from "Alice" 150 seconds apart
with no reply relation end up in two separate groups. -/
theorem c3_new_group_conditions :
    (∀ (cfg : GrouperConfig) (msg : BufferedMessage) (g : MessageGroup)
        (lt : Option Int) (now : Int),
      MessageGrouper.shouldStartNewGroup cfg msg (some g) lt now = true ↔
        (g.messages = [] ∨
         (msg.sender_name ≠ g.primary_sender ∧
           MessageGrouper.optIdMem msg.reply_to_message_id g.getAllMessageIds = false) ∨
         (∃ t, lt = some t ∧ now - t > 120) ∨
         cfg.max_group_size ≤ g.messages.length)) ∧
    (∀ (cfg : GrouperConfig) (msg : BufferedMessage) (lt : Option Int) (now : Int),
      MessageGrouper.shouldStartNewGroup cfg msg none lt now = true) ∧
    ((MessageGrouper.run {} {}
        [MessageGrouper.GrouperEvent.arrive aliceMsg1 0,
         MessageGrouper.GrouperEvent.arrive aliceMsg2 150]).finalized.map
        (fun g => g.messages.map fun m => m.message_id) = [[1]] ∧
     (MessageGrouper.alistGet
        (MessageGrouper.run {} {}
          [MessageGrouper.GrouperEvent.arrive aliceMsg1 0,
           MessageGrouper.GrouperEvent.arrive aliceMsg2 150]).pending_groups
        7).map (fun g => g.messages.map fun m => m.message_id) = some [2]) := by
  refine ⟨MessageGrouper.shouldStartNewGroup_iff, ?_, by decide, by decide⟩
  intro cfg msg lt now
  rfl

/-- C5: over every event schedule, an open group always holds strictly
fewer than `max_group_size` messages and a finalized group never more than
`max_group_size`; a group at maximum size forces a new group on the next
arrival, and a group that reaches maximum size on an append is finalized
immediately. -/
theorem c5_group_size_bounded :
    (∀ cfg : GrouperConfig, 1 ≤ cfg.max_group_size →
      ∀ events : List MessageGrouper.GrouperEvent,
        MessageGrouper.sizeInv cfg (MessageGrouper.run cfg {} events)) ∧
    (∀ (cfg : GrouperConfig) (msg : BufferedMessage) (g : MessageGroup)
        (lt : Option Int) (now : Int),
      cfg.max_group_size ≤ g.messages.length →
      MessageGrouper.shouldStartNewGroup cfg msg (some g) lt now = true) ∧
    (∀ (cfg : GrouperConfig) (g : MessageGroup) (msg : BufferedMessage),
      cfg.max_group_size ≤ g.messages.length →
      MessageGrouper.shouldProcessImmediately cfg g msg = true) := by
  refine ⟨?_, ?_, ?_⟩
  · intro cfg hmax events
    refine MessageGrouper.run_sizeInv hmax events {} ⟨?_, ?_⟩ <;>
      intro x hx <;> simp at hx
  · intro cfg msg g lt now hge
    exact MessageGrouper.shouldStartNewGroup_of_max cfg msg g lt now hge
  · intro cfg g msg hge
    exact MessageGrouper.shouldProcessImmediately_of_max cfg g msg hge

/-- C5 (witness): a maximum size of 2 with three quick same-sender arrivals
(1 second apart): the first two messages finalize as one group of two, the
third opens a new group; the invariant holds in the final state. -/
theorem c5_group_size_witness :
    MessageGrouper.sizeInv { max_group_size := 2 }
      (MessageGrouper.run { max_group_size := 2 } {}
        [MessageGrouper.GrouperEvent.arrive aliceMsg1 0,
         MessageGrouper.GrouperEvent.arrive aliceMsg2 1,
         MessageGrouper.GrouperEvent.arrive
           { message_id := 3, chat_id := 7, sender_name := "Alice",
             text := "third", timestamp := 2 } 2]) ∧
    MessageGrouper.shouldStartNewGroup { max_group_size := 2 } aliceMsg2
      (some { messages := [aliceMsg1, aliceMsg2], primary_sender := "Alice" })
      (some 1) 2 = true ∧
    MessageGrouper.shouldProcessImmediately { max_group_size := 2 }
      { messages := [aliceMsg1, aliceMsg2], primary_sender := "Alice" }
      aliceMsg2 = true :=
  ⟨c5_group_size_bounded.1 { max_group_size := 2 } (by decide)
      [MessageGrouper.GrouperEvent.arrive aliceMsg1 0,
       MessageGrouper.GrouperEvent.arrive aliceMsg2 1,
       MessageGrouper.GrouperEvent.arrive
         { message_id := 3, chat_id := 7, sender_name := "Alice",
           text := "third", timestamp := 2 } 2],
   c5_group_size_bounded.2.1 { max_group_size := 2 } aliceMsg2
     { messages := [aliceMsg1, aliceMsg2], primary_sender := "Alice" }
     (some 1) 2 (by decide),
   c5_group_size_bounded.2.2 { max_group_size := 2 }
     { messages := [aliceMsg1, aliceMsg2], primary_sender := "Alice" }
     aliceMsg2 (by decide)⟩

/-- C7: `detect_links` returns its list sorted by non-increasing priority,
where each link's priority is the per-type base score plus a flat bonus of
50 when `is_deck` holds; links of equal priority keep their order of first
appearance in the text (the filter at any priority equals the unsorted
filter); and on
`"Deck: https://docsend.com/view/abc Memo: https://docsend.com/view/def"`
it returns the two DocSend deck links, `abc` before `def`. -/
theorem c7_priority_order :
    (∀ text : String,
      List.Sorted LinkDetector.priorityGE (LinkDetector.detectLinks text)) ∧
    (∀ (text : String) (p : Nat),
      (LinkDetector.detectLinks text).filter (fun d => decide (d.priority = p)) =
        (LinkDetector.detectLinksUnsorted text).filter
          (fun d => decide (d.priority = p))) ∧
    (∀ (text : String) (d : DetectedLink), d ∈ LinkDetector.detectLinks text →
      d.priority = LinkDetector.priorityMap d.link_type +
        (if d.is_deck then 50 else 0)) ∧
    LinkDetector.detectLinks
        "Deck: https://docsend.com/view/abc Memo: https://docsend.com/view/def" =
      [{ url := "https://docsend.com/view/abc", link_type := LinkType.DOCSEND,
         is_deck := true, priority := 150 },
       { url := "https://docsend.com/view/def", link_type := LinkType.DOCSEND,
         is_deck := true, priority := 150 }] := by
  refine ⟨?_, ?_, ?_, by decide⟩
  · intro text
    exact LinkDetector.sortLinks_sorted _
  · intro text p
    exact LinkDetector.sortLinks_filter _ p
  · intro text d hd
    exact LinkDetector.mem_detectLinks_priority text d hd

/-- The two-deck-link text of the C1 scenario. -/
def c1Text : String := "https://docsend.com/view/aaa https://docsend.com/view/bbb"

/-- The first detected deck link of `c1Text` (link A of the scenario). -/
def c1LinkA : DetectedLink :=
  { url := "https://docsend.com/view/aaa", link_type := LinkType.DOCSEND,
    is_deck := true, priority := 150 }

/-- The second detected deck link of `c1Text` (link B of the scenario). -/
def c1LinkB : DetectedLink :=
  { url := "https://docsend.com/view/bbb", link_type := LinkType.DOCSEND,
    is_deck := true, priority := 150 }

/-- The C1 scenario's fetch oracle: link A fails with error `boom`, link B
succeeds with exactly 10 characters of content. -/
def c1Fetch : DetectedLink → FetchedDeck := fun link =>
  if link.url = "https://docsend.com/view/aaa" then
    { url := link.url, success := false, error := some "boom" }
  else
    { url := link.url, success := true, content := some "0123456789" }

/-- The LLM stage's result for the C1 scenario (fresh record, no review
data). -/
def c1Llm : ExtractionResult := { success := true }

/-- C1 (counterexample): with two detected deck links where A fails with
error `boom` and B succeeds with 10 characters, the outcome has
`decks_detected = 2`, `decks_fetched = 1` and `needs_review = true`, but
`review_reasons` holds only B's thin-content reason — no reason cites A's
error string, because per-link error reasons are recorded only when zero
links fetched successfully. -/
theorem c1_counterexample :
    (DealExtractor.extract c1Fetch c1Llm c1Text).decks_detected = 2 ∧
    (DealExtractor.extract c1Fetch c1Llm c1Text).decks_fetched = 1 ∧
    (DealExtractor.extract c1Fetch c1Llm c1Text).needs_review = true ∧
    (DealExtractor.extract c1Fetch c1Llm c1Text).review_reasons =
      ["https://docsend.com/view/bbb: thin content (10 chars, may be login page)"] ∧
    ((DealExtractor.extract c1Fetch c1Llm c1Text).review_reasons.all
      fun r => !(strContains ("boom".data) r.data)) = true := by
  refine ⟨by decide, by decide, by decide, by decide, by decide⟩

/-- C1 (amended): for an orchestrator call whose text yields exactly two
deck links where fetching A fails (with any error string) and B succeeds
with 10 characters of content, the result has `decks_detected = 2`,
`decks_fetched = 1`, `needs_review = true`, and `review_reasons` consists
of exactly B's thin-content reason; A's error string is not recorded,
since error reasons are only aggregated when no link fetched
successfully. -/
theorem c1_partial_failure_review (fetch : DetectedLink → FetchedDeck)
    (llm : ExtractionResult) (text : String) (A B : DetectedLink) (eA sB : String)
    (hlinks : LinkDetector.getAllDeckLinks text = [A, B])
    (hA : fetch A = { url := A.url, success := false, error := some eA })
    (hB : fetch B = { url := B.url, success := true, content := some sB })
    (hlen : sB.length = 10) (hrr : llm.review_reasons = []) :
    DealExtractor.extract fetch llm text =
      { llm with
        decks_detected := 2
        decks_fetched := 1
        needs_review := true
        review_reasons :=
          [B.url ++ ": thin content (" ++ toString (10 : Nat) ++
            " chars, may be login page)"] } := by
  have hne : (sB != "") = true := by
    have hx : sB ≠ "" := by
      intro heq
      rw [heq] at hlen
      simp at hlen
    simpa using hx
  simp [DealExtractor.extract, hlinks, hA, hB, List.filter_cons, contentTruthy,
    contentLen, hne, hlen, hrr]

/-- C1 (witness): the amended statement at the concrete scenario. -/
theorem c1_partial_failure_witness :
    LinkDetector.getAllDeckLinks c1Text = [c1LinkA, c1LinkB] ∧
    DealExtractor.extract c1Fetch c1Llm c1Text =
      { c1Llm with
        decks_detected := 2
        decks_fetched := 1
        needs_review := true
        review_reasons :=
          [c1LinkB.url ++ ": thin content (" ++ toString (10 : Nat) ++
            " chars, may be login page)"] } :=
  ⟨by decide,
   c1_partial_failure_review c1Fetch c1Llm c1Text c1LinkA c1LinkB "boom"
     "0123456789" (by decide) (by decide) (by decide) (by decide) (by decide)⟩

/-- C10: when a text yields zero deck links, the orchestrator returns the
LLM stage's result with `decks_detected = 0` and `decks_fetched = 0` and
touches neither `needs_review` nor `review_reasons` (both review branches
are guarded by detected or fetched decks). -/
theorem c10_no_links_no_review (fetch : DetectedLink → FetchedDeck)
    (llmResult : ExtractionResult) (text : String)
    (h : LinkDetector.getAllDeckLinks text = []) :
    DealExtractor.extract fetch llmResult text =
      { llmResult with decks_detected := 0, decks_fetched := 0 } := by
  simp [DealExtractor.extract, h]

/-- C10 (witness): a linkless text with a non-trivial LLM result: the
review fields pass through unchanged. -/
theorem c10_no_links_witness :
    LinkDetector.getAllDeckLinks "just words, no links" = [] ∧
    DealExtractor.extract (fun l => { url := l.url, success := false })
        { success := true, needs_review := false } "just words, no links" =
      { success := true, needs_review := false, decks_detected := 0,
        decks_fetched := 0 } :=
  ⟨by decide,
   c10_no_links_no_review (fun l => { url := l.url, success := false })
     { success := true, needs_review := false } "just words, no links" (by decide)⟩

/-- The C6 scenario's API oracle: the docsend2pdf API reports the document
as passcode-protected. -/
def c6Api : DocSendExtractionResult :=
  { success := false, error := some "API error: Invalid passcode" }

/-- The C6 scenario's Playwright oracle.  It must never be consulted on a
passcode failure; its value is irrelevant. -/
def c6Browser : DocSendExtractionResult :=
  { success := false, error := some "playwright oracle" }

/-- The C6 scenario's browser-agent oracle: the opt-in agent reports a
success. -/
def c6Agent : FetchedDeck :=
  { url := "https://docsend.com/view/abc", success := true,
    content := some "content recovered by the browser agent" }

/-- The deck link of the C6 scenario. -/
def c6Link : DetectedLink :=
  { url := "https://docsend.com/view/abc", link_type := LinkType.DOCSEND,
    is_deck := true, priority := 150 }

/-- The C6 scenario's OCR oracle (never reached on a failed fetch). -/
def c6PdfX : String → PDFExtractionResult := fun _ => { success := false }

/-- C6 (counterexample): with the opt-in browser-agent extractor
configured, a link the DocSend fetcher reports as password-protected IS
retried through another fetcher — `_fetch_deck` hands it to the browser
agent, and here the final recorded result is that fetcher's success, not a
clean failure. -/
theorem c6_counterexample :
    (DocSendExtractor.extract true ExtractionMode.AUTO c6Api c6Browser
      "https://docsend.com/view/abc").1.error = some "Document requires password" ∧
    DealExtractor.fetchDeckDocsend true true
        (DocSendExtractor.extract true ExtractionMode.AUTO c6Api c6Browser
          "https://docsend.com/view/abc").1 c6PdfX c6Agent c6Link =
      (c6Agent, true) ∧
    c6Agent.success = true := by
  refine ⟨by decide, by decide, by decide⟩

/-- C6 (amended): when the API reports a passcode-protected document, the
DocSend fetcher records a clean failure (`success = false`) with the
distinguishing reason `Document requires password` and does not fall back
to its Playwright technique; the orchestrator records that failure without
retrying the link through any other fetcher unless the opt-in
browser-agent extractor is configured, in which case it retries the link
through the browser agent. -/
theorem c6_password_protected_no_retry (api browser : DocSendExtractionResult)
    (url : String) (pdfX : String → PDFExtractionResult) (agent : FetchedDeck)
    (agentConfigured : Bool) (link : DetectedLink)
    (hfail : api.success = false)
    (hpass : DocSendExtractor.errorMentionsPasscode api = true) :
    (DocSendExtractor.extract true ExtractionMode.AUTO api browser url).2 = false ∧
    (DocSendExtractor.extract true ExtractionMode.AUTO api browser url).1.success
      = false ∧
    (DocSendExtractor.extract true ExtractionMode.AUTO api browser url).1.error =
      some "Document requires password" ∧
    DealExtractor.fetchDeckDocsend true agentConfigured
        (DocSendExtractor.extract true ExtractionMode.AUTO api browser url).1
        pdfX agent link =
      (if agentConfigured then (agent, true)
       else ((DocSendExtractor.extract true ExtractionMode.AUTO api browser url).1,
         false)) := by
  simp only [DocSendExtractor.extract, DocSendExtractor.extractInternal, hfail, hpass,
    DealExtractor.fetchDeckDocsend]
  simp [hfail, hpass]

/-- C6 (witness): the amended statement at the concrete scenario with the
browser agent disabled — the clean failure is recorded and no fetcher
retries the link. -/
theorem c6_password_protected_witness :
    c6Api.success = false ∧
    DocSendExtractor.errorMentionsPasscode c6Api = true ∧
    ((DocSendExtractor.extract true ExtractionMode.AUTO c6Api c6Browser
        "https://docsend.com/view/abc").2 = false ∧
     (DocSendExtractor.extract true ExtractionMode.AUTO c6Api c6Browser
        "https://docsend.com/view/abc").1.success = false ∧
     (DocSendExtractor.extract true ExtractionMode.AUTO c6Api c6Browser
        "https://docsend.com/view/abc").1.error =
       some "Document requires password" ∧
     DealExtractor.fetchDeckDocsend true false
         (DocSendExtractor.extract true ExtractionMode.AUTO c6Api c6Browser
           "https://docsend.com/view/abc").1 c6PdfX c6Agent c6Link =
       (if false then (c6Agent, true)
        else ((DocSendExtractor.extract true ExtractionMode.AUTO c6Api c6Browser
          "https://docsend.com/view/abc").1, false))) :=
  ⟨by decide, by decide,
   c6_password_protected_no_retry c6Api c6Browser "https://docsend.com/view/abc"
     c6PdfX c6Agent false c6Link (by decide) (by decide)⟩

/-- C7 (witness): the priority formula instantiated at the scenario's first
link, whose membership in the detector's output is computed. -/
theorem c7_priority_witness :
    ({ url := "https://docsend.com/view/abc", link_type := LinkType.DOCSEND,
       is_deck := true, priority := 150 } : DetectedLink) ∈
      LinkDetector.detectLinks
        "Deck: https://docsend.com/view/abc Memo: https://docsend.com/view/def" ∧
    ({ url := "https://docsend.com/view/abc", link_type := LinkType.DOCSEND,
       is_deck := true, priority := 150 } : DetectedLink).priority =
      LinkDetector.priorityMap
        ({ url := "https://docsend.com/view/abc", link_type := LinkType.DOCSEND,
           is_deck := true, priority := 150 } : DetectedLink).link_type +
        (if ({ url := "https://docsend.com/view/abc",
               link_type := LinkType.DOCSEND, is_deck := true,
               priority := 150 } : DetectedLink).is_deck then 50 else 0) :=
  ⟨by decide,
   c7_priority_order.2.2.1
     "Deck: https://docsend.com/view/abc Memo: https://docsend.com/view/def"
     { url := "https://docsend.com/view/abc", link_type := LinkType.DOCSEND,
       is_deck := true, priority := 150 }
     (by decide)⟩
